import Mathlib

/-!
Shallow embedding of the state-synchronization core of `app_capgemini.py`
(Career-Fair-App-V1): schema normalization (`_ensure_schema`), row identity
(`_key`), snapshot diffing (`_diff_rows`), the Dropbox write path with
auth-retry (`_upload_with_auto_refresh`, `write_state_df`), and the
module-level debounced autosave block with optimistic update and rollback.

Pandas DataFrames holding candidate rows are modelled as lists of `Row`
(the seven canonical columns); raw pre-normalization tables are modelled
as ordered lists of named columns of dynamically typed cells.  Wall-clock
times (Python floats from `time.time()`) are modelled as rationals.
Effectful remote calls (Dropbox upload, folder creation, token refresh,
write success) are modelled by oracles recording each call's outcome.
-/

namespace CareerFair

/-- One row of the canonical candidate table: three string identity columns
(`first_name`, `last_name`, `file_name`) and four boolean flag columns
(`seen`, `intend_view`, `cv_saved`, `contacted`). -/
structure Row where
  first : String
  last : String
  file : String
  seen : Bool
  intendView : Bool
  cvSaved : Bool
  contacted : Bool
deriving DecidableEq, Repr

/-- The four flags of a row, as a tuple. -/
def Row.flags (r : Row) : Bool × Bool × Bool × Bool :=
  (r.seen, r.intendView, r.cvSaved, r.contacted)

/-- Python `str.strip()`: remove leading and trailing whitespace.  Defined by
structural recursion over the character list so it evaluates in the kernel. -/
def pyStrip (s : String) : String :=
  ⟨((s.data.dropWhile Char.isWhitespace).reverse.dropWhile Char.isWhitespace).reverse⟩

/-- Python `str.lower()` (ASCII case folding). -/
def pyLower (s : String) : String :=
  ⟨s.data.map Char.toLower⟩

/-- Embedding of `_key`: identity key of a row — `first.strip().lower()`, `last.strip().lower()`
and `file.strip()` (the file URL is stripped but NOT lowercased), joined by
the literal separator `||`. -/
def key (r : Row) : String :=
  pyLower (pyStrip r.first) ++ "||" ++ pyLower (pyStrip r.last) ++ "||" ++ pyStrip r.file

/-- The per-row `changed` disjunction of `_diff_rows`: true iff any of the
four flags differs between a previous-snapshot row and a current-view row. -/
def flagsNe (p c : Row) : Bool :=
  (p.seen != c.seen) || (p.intendView != c.intendView) ||
  (p.cvSaved != c.cvSaved) || (p.contacted != c.contacted)

/-- The rows that one current-view row `c` contributes to the output of
`_diff_rows`: the left merge on `_k` matches `c` against every snapshot row
with the same identity key; with no match, `c` comes out once (every flag
comparison against NaN is true), and with matches, `c` comes out once per
matching snapshot row whose flags differ. -/
def diffOne (ps : List Row) (c : Row) : List Row :=
  match ps.filter (fun p => key p == key c) with
  | [] => [c]
  | ms => (ms.filter (fun p => flagsNe p c)).map (fun _ => c)

/-- Embedding of `_diff_rows(prev, curr)`: when the previous snapshot is `none` (absent) or
empty, returns no rows.  Otherwise mirrors
`curr.merge(prev[["_k", *BOOL_COLS]], on="_k", how="left")` followed by the
`changed` mask, row by row of `curr`. -/
def diffRows (prev : Option (List Row)) (curr : List Row) : List Row :=
  match prev with
  | none => []
  | some ps =>
    if ps = [] then []
    else curr.flatMap (diffOne ps)

/-- Replace the four flags of `r` by those of `d` (the merge assignment
`full[c] = full[f"{c}_new"].combine_first(full[c])` for a matched row). -/
def setFlags (r d : Row) : Row :=
  { r with seen := d.seen, intendView := d.intendView,
           cvSaved := d.cvSaved, contacted := d.contacted }

/-- The rows that one authoritative row `r` contributes to the optimistic
merge: an unmatched row is kept as is (`combine_first` keeps the old flags
where the left merge produced NaN), and a matched row yields one output row
per matching delta row, with the delta's flags and `r`'s identity. -/
def mergeOne (delta : List Row) (r : Row) : List Row :=
  match delta.filter (fun d => key d == key r) with
  | [] => [r]
  | ms => ms.map (fun d => setFlags r d)

/-- The optimistic merge of the autosave block:
`full.merge(delta, on="_k", how="left")` then `combine_first` per flag
column, row by row of the authoritative table. -/
def mergeDelta (full delta : List Row) : List Row :=
  full.flatMap (mergeOne delta)

/-- Key lookup in the changed-row delta, and flag replacement on a hit:
what one left-merge row amounts to when the delta has no duplicate keys. -/
def updateFlags (delta : List Row) (r : Row) : Row :=
  match delta.find? (fun d => key d == key r) with
  | some d => setFlags r d
  | none => r

/-- Debounce interval: `AUTOSAVE_DEBOUNCE_SEC = 0.35` seconds. -/
def AUTOSAVE_DEBOUNCE_SEC : ℚ := 7 / 20

/-- The per-user session state touched by the autosave block: the
authoritative table `st.session_state.df`, the baseline snapshot
`st.session_state["snapshot_all"]` (absent on first draw), the last write
timestamp `st.session_state.last_save_ts`, and the autosave toggle. -/
structure SessionState where
  df : List Row
  snapshot : Option (List Row)
  lastSaveTs : ℚ
  autosave : Bool
deriving DecidableEq, Repr

/-- Result of one interaction pass: the updated session state, whether a
remote write was attempted, and the table that was handed to
`write_state_df` when one was. -/
structure PassResult where
  state : SessionState
  wrote : Bool
  written : Option (List Row)
deriving DecidableEq, Repr

/-- One evaluation of the module-level autosave block followed by the
first-draw snapshot initialization (`app_capgemini.py` lines 288–320).
`curr` is the current edited view (`curr_flags`), `now` is `time.time()`,
and `writeOk` is the oracle for the success of `write_state_df`.
On a write: the merged table is committed optimistically, the timestamp is
recorded whether or not the write succeeds, the snapshot advances only on
success, and on failure the authoritative table is restored from `backup`. -/
def passStep (st : SessionState) (now : ℚ) (curr : List Row) (writeOk : Bool) :
    PassResult :=
  let changed := diffRows st.snapshot curr
  let afterSave : PassResult :=
    if st.autosave = true ∧ changed ≠ [] ∧ AUTOSAVE_DEBOUNCE_SEC ≤ now - st.lastSaveTs then
      let full := mergeDelta st.df changed
      if writeOk then
        ⟨⟨full, some curr, now, st.autosave⟩, true, some full⟩
      else
        ⟨⟨st.df, st.snapshot, now, st.autosave⟩, true, some full⟩
    else
      ⟨st, false, none⟩
  match afterSave.state.snapshot with
  | none => ⟨{ afterSave.state with snapshot := some curr }, afterSave.wrote, afterSave.written⟩
  | some _ => afterSave

section WritePath

/-- Outcome of one remote Dropbox call: success, or one of the three
exception classes distinguished by `_upload_with_auto_refresh`
(`AuthError`, `ApiError`, any other exception). -/
inductive CallOut
  | ok
  | authErr
  | apiErr
  | otherErr
deriving DecidableEq, Repr

/-- Oracle for one evaluation of the write path: the outcomes of the first
`files_create_folder_v2` and `files_upload` calls, whether
`_refresh_dbx_client()` returns a client (it raises when the token-exchange
request fails), and the outcomes of the folder and upload calls of the
retry. -/
structure WriteEnv where
  folder1 : CallOut
  upload1 : CallOut
  refreshOk : Bool
  folder2 : CallOut
  upload2 : CallOut
deriving DecidableEq, Repr

/-- What `write_state_df` returns, instrumented with the number of
`files_upload` attempts and of `_refresh_dbx_client` calls made. -/
structure WriteOutcome where
  success : Bool
  error : Option String
  uploadAttempts : Nat
  refreshCalls : Nat
deriving DecidableEq, Repr

/-- Embedding of `_ensure_folder_tree`: it swallows `ApiError` (folder already exists);
any other exception propagates to the caller's handlers. -/
def folderRaises : CallOut → Option CallOut
  | .ok => none
  | .apiErr => none
  | .authErr => some .authErr
  | .otherErr => some .otherErr

/-- The `except AuthError` handler of `_upload_with_auto_refresh`, entered
with `u` upload attempts already made: refresh the client, re-ensure the
folder, retry the upload; any exception in that inner `try` yields
`(False, "AuthError after refresh: ...")`. -/
def authRetry (env : WriteEnv) (u : Nat) : WriteOutcome :=
  if env.refreshOk = false then
    ⟨false, some "AuthError after refresh", u, 1⟩
  else
    match folderRaises env.folder2 with
    | some _ => ⟨false, some "AuthError after refresh", u, 1⟩
    | none =>
      match env.upload2 with
      | .ok => ⟨true, none, u + 1, 1⟩
      | _ => ⟨false, some "AuthError after refresh", u + 1, 1⟩

/-- Embedding of `_upload_with_auto_refresh(data, path)`: ensure the folder, upload;
on `AuthError` run the refresh-and-retry handler once; `ApiError` and other
exceptions are converted to `(False, error)` without retry. -/
def uploadWithAutoRefresh (env : WriteEnv) : WriteOutcome :=
  match folderRaises env.folder1 with
  | some .authErr => authRetry env 0
  | some _ => ⟨false, some "Write error", 0, 0⟩
  | none =>
    match env.upload1 with
    | .ok => ⟨true, none, 1, 0⟩
    | .authErr => authRetry env 1
    | .apiErr => ⟨false, some "ApiError", 1, 0⟩
    | .otherErr => ⟨false, some "Write error", 1, 0⟩

/-- Embedding of `write_state_df(full_df)`: returns `(False, "Dropbox not configured")`
when no Dropbox client was built, otherwise serializes the table and calls
`_upload_with_auto_refresh`.  `configured` models `DBX is not None`. -/
def write_state_df (configured : Bool) (env : WriteEnv) : WriteOutcome :=
  if configured then uploadWithAutoRefresh env
  else ⟨false, some "Dropbox not configured", 0, 0⟩

end WritePath

section Normalizer

/-- A dynamically typed pandas cell as `_ensure_schema` can see it: a string
(CSV fields, the fill value `""`, the string `"nan"` that `astype(str)`
produces for missing values) or a boolean (a previously coerced flag
column). -/
inductive Cell
  | str (s : String)
  | bool (b : Bool)
deriving DecidableEq, Repr

/-- Python `str(...)` of a cell, as applied by `.astype(str)`:
booleans print as `True` / `False`. -/
def Cell.pyStr : Cell → String
  | .str s => s
  | .bool true => "True"
  | .bool false => "False"

/-- A raw table: an ordered list of named columns.  (pandas keeps all
columns at one common length; `nrows` reads it off the first column.) -/
def Table := List (String × List Cell)

instance : DecidableEq Table := by
  unfold Table
  infer_instance

/-- Row count `len(df)`: the common column length (0 for a table with no columns). -/
def nrows (df : Table) : Nat :=
  match df with
  | [] => 0
  | (_, cs) :: _ => cs.length

/-- Column lookup, `df[c]` guarded by `c in df`. -/
def findCol (df : Table) (c : String) : Option (List Cell) :=
  (df.find? (fun p => p.1 == c)).map (fun p => p.2)

/-- The truthy/falsy vocabulary of the `.map({...})` dictionary in
`_ensure_schema`. -/
def pyBoolMap (s : String) : Option Bool :=
  if s = "true" then some true
  else if s = "1" then some true
  else if s = "yes" then some true
  else if s = "y" then some true
  else if s = "false" then some false
  else if s = "0" then some false
  else if s = "no" then some false
  else if s = "n" then some false
  else none

/-- Coercion of one flag cell:
`astype(str).str.strip().str.lower()` then `.map({...}).fillna(False)`. -/
def coerceFlag (c : Cell) : Bool :=
  (pyBoolMap (pyLower (pyStrip c.pyStr))).getD false

/-- An identity column after `_ensure_schema`: kept as is when present,
filled with `""` when absent. -/
def identCol (df : Table) (c : String) : List Cell :=
  (findCol df c).getD (List.replicate (nrows df) (Cell.str ""))

/-- A flag column after `_ensure_schema`: coerced cell by cell when
present, filled with `False` when absent. -/
def flagCol (df : Table) (c : String) : List Cell :=
  match findCol df c with
  | some cs => cs.map (fun x => Cell.bool (coerceFlag x))
  | none => List.replicate (nrows df) (Cell.bool false)

/-- The canonical column names `ALL_COLS`, in their fixed order. -/
def ALL_COLS : List String :=
  ["first_name", "last_name", "file_name", "seen", "intend_view", "cv_saved", "contacted"]

/-- Embedding of `_ensure_schema(df)`: fill the missing identity and flag columns,
coerce the flag columns to boolean, and select exactly the canonical
columns in their fixed order (extra columns are dropped). -/
def ensure_schema (df : Table) : Table :=
  [("first_name", identCol df "first_name"),
   ("last_name", identCol df "last_name"),
   ("file_name", identCol df "file_name"),
   ("seen", flagCol df "seen"),
   ("intend_view", flagCol df "intend_view"),
   ("cv_saved", flagCol df "cv_saved"),
   ("contacted", flagCol df "contacted")]

end Normalizer

/-- Sample candidate row (all flags clear), for concrete instantiations. -/
def rowA : Row := ⟨"Jane", "Doe", "https://x/cv.pdf", false, false, false, false⟩

/-- Sample row `rowA` with the `seen` flag toggled on (an edit of `rowA`). -/
def rowA₁ : Row := ⟨"Jane", "Doe", "https://x/cv.pdf", true, false, false, false⟩

/-- A second sample candidate row with a distinct identity key. -/
def rowB : Row := ⟨"Amir", "Khan", "https://x/cv2.pdf", false, false, false, false⟩

/-- Sample row `rowB` with the `seen` flag toggled on (an edit of `rowB`). -/
def rowB₁ : Row := ⟨"Amir", "Khan", "https://x/cv2.pdf", true, false, false, false⟩

/-- A sample raw table: a flag column with assorted spellings, an extra
column, and no identity columns. -/
def sampleRaw : Table :=
  [("seen", [Cell.str "yes", Cell.str "junk"]), ("extra", [Cell.str "x", Cell.str "y"])]

/-! ### Helper lemmas -/

theorem diffRows_none (curr : List Row) : diffRows none curr = [] := rfl

theorem diffRows_some_nil (curr : List Row) : diffRows (some []) curr = [] := by
  simp [diffRows]

/-- The changed mask `flagsNe` is flag-tuple disequality. -/
theorem flagsNe_eq_true_iff (p c : Row) :
    flagsNe p c = true ↔
      (p.seen ≠ c.seen ∨ p.intendView ≠ c.intendView ∨
       p.cvSaved ≠ c.cvSaved ∨ p.contacted ≠ c.contacted) := by
  simp [flagsNe, bne_iff_ne, or_assoc]

theorem flagsNe_eq_false_iff (p c : Row) :
    flagsNe p c = false ↔ Row.flags p = Row.flags c := by
  simp [flagsNe, Row.flags, Prod.ext_iff, bne_iff_ne, not_or, and_assoc,
    Bool.or_eq_false_iff, bne_eq_false_iff_eq]

theorem diffRows_eq_flatMap (ps : List Row) (curr : List Row) (hps : ps ≠ []) :
    diffRows (some ps) curr = curr.flatMap (diffOne ps) := by
  simp only [diffRows, if_neg hps]

theorem mem_diffOne_iff (ps : List Row) (c x : Row) :
    x ∈ diffOne ps c ↔
      x = c ∧ ((∃ p ∈ ps, key p = key c ∧ flagsNe p c = true) ∨ ∀ p ∈ ps, key p ≠ key c) := by
  unfold diffOne
  rcases hf : ps.filter (fun p => key p == key c) with _ | ⟨q, qs⟩
  · rw [List.filter_eq_nil_iff] at hf
    simp only [List.mem_singleton]
    constructor
    · rintro rfl
      refine ⟨rfl, Or.inr fun p hp => ?_⟩
      have := hf p hp
      simpa [beq_iff_eq] using this
    · rintro ⟨rfl, _⟩
      rfl
  · have hq : q ∈ ps.filter (fun p => key p == key c) := by rw [hf]; exact List.mem_cons_self ..
    have hqps : q ∈ ps ∧ key q = key c := by simpa [beq_iff_eq] using List.mem_filter.mp hq
    constructor
    · intro hx
      rcases List.mem_map.mp hx with ⟨p, hp, rfl⟩
      have hp' := List.mem_filter.mp hp
      have hpf : p ∈ ps ∧ key p = key c := by
        have : p ∈ ps.filter (fun p => key p == key c) := by rw [hf]; exact hp'.1
        simpa [beq_iff_eq] using List.mem_filter.mp this
      exact ⟨rfl, Or.inl ⟨p, hpf.1, hpf.2, hp'.2⟩⟩
    · rintro ⟨rfl, h | h⟩
      · rcases h with ⟨p, hp, hk, hne⟩
        have hpf : p ∈ q :: qs := by
          rw [← hf]
          exact List.mem_filter.mpr ⟨hp, by simpa [beq_iff_eq] using hk⟩
        exact List.mem_map.mpr ⟨p, List.mem_filter.mpr ⟨hpf, hne⟩, rfl⟩
      · exact absurd hqps.2 (h q hqps.1)

/-- Membership characterization of `_diff_rows` for a nonempty snapshot. -/
theorem mem_diffRows_iff (ps : List Row) (curr : List Row) (c : Row) (hps : ps ≠ []) :
    c ∈ diffRows (some ps) curr ↔
      c ∈ curr ∧
        ((∃ p ∈ ps, key p = key c ∧ flagsNe p c = true) ∨ ∀ p ∈ ps, key p ≠ key c) := by
  rw [diffRows_eq_flatMap ps curr hps, List.mem_flatMap]
  constructor
  · rintro ⟨a, ha, hmem⟩
    rcases (mem_diffOne_iff ps a c).mp hmem with ⟨rfl, h⟩
    exact ⟨ha, h⟩
  · rintro ⟨hc, h⟩
    exact ⟨c, hc, (mem_diffOne_iff ps c c).mpr ⟨rfl, h⟩⟩

theorem diffOne_eq_nil_iff (ps : List Row) (c : Row) :
    diffOne ps c = [] ↔
      (∃ p ∈ ps, key p = key c) ∧ ∀ p ∈ ps, key p = key c → flagsNe p c = false := by
  unfold diffOne
  rcases hf : ps.filter (fun p => key p == key c) with _ | ⟨q, qs⟩
  · rw [List.filter_eq_nil_iff] at hf
    simp only [List.cons_ne_nil, false_iff, not_and]
    rintro ⟨p, hp, hk⟩
    exact absurd (by simpa [beq_iff_eq] using hk) (by simpa [beq_iff_eq] using hf p hp)
  · have hq : q ∈ ps.filter (fun p => key p == key c) := by rw [hf]; exact List.mem_cons_self ..
    have hqps : q ∈ ps ∧ key q = key c := by simpa [beq_iff_eq] using List.mem_filter.mp hq
    rw [List.map_eq_nil_iff, List.filter_eq_nil_iff]
    constructor
    · intro h
      refine ⟨⟨q, hqps.1, hqps.2⟩, fun p hp hk => ?_⟩
      have hpf : p ∈ q :: qs := by
        rw [← hf]
        exact List.mem_filter.mpr ⟨hp, by simpa [beq_iff_eq] using hk⟩
      simpa using h p hpf
    · rintro ⟨-, h⟩ p hp
      have hpf : p ∈ ps ∧ key p = key c := by
        have : p ∈ ps.filter (fun p => key p == key c) := by rw [hf]; exact hp
        simpa [beq_iff_eq] using List.mem_filter.mp this
      simpa using h p hpf.1 hpf.2

/-- Lemma: `_diff_rows` returns the empty set, for a nonempty snapshot, iff every
current row has a key match whose flags all agree. -/
theorem diffRows_eq_nil_iff (ps : List Row) (curr : List Row) (hps : ps ≠ []) :
    diffRows (some ps) curr = [] ↔
      ∀ c ∈ curr,
        (∃ p ∈ ps, key p = key c) ∧ ∀ p ∈ ps, key p = key c → flagsNe p c = false := by
  rw [diffRows_eq_flatMap ps curr hps, List.flatMap_eq_nil_iff]
  exact forall₂_congr fun c _ => diffOne_eq_nil_iff ps c

theorem passStep_commit (st : SessionState) (now : ℚ) (curr : List Row)
    (ha : st.autosave = true) (hc : diffRows st.snapshot curr ≠ [])
    (hd : AUTOSAVE_DEBOUNCE_SEC ≤ now - st.lastSaveTs) :
    passStep st now curr true =
      ⟨⟨mergeDelta st.df (diffRows st.snapshot curr), some curr, now, st.autosave⟩,
        true, some (mergeDelta st.df (diffRows st.snapshot curr))⟩ := by
  simp only [passStep]
  rw [if_pos ⟨ha, hc, hd⟩]
  simp

theorem passStep_rollback (st : SessionState) (now : ℚ) (curr : List Row)
    (ha : st.autosave = true) (hc : diffRows st.snapshot curr ≠ [])
    (hd : AUTOSAVE_DEBOUNCE_SEC ≤ now - st.lastSaveTs) :
    passStep st now curr false =
      ⟨⟨st.df, st.snapshot, now, st.autosave⟩, true,
        some (mergeDelta st.df (diffRows st.snapshot curr))⟩ := by
  rcases hsnap : st.snapshot with _ | ps
  · rw [hsnap] at hc
    exact absurd rfl hc
  · simp only [passStep, hsnap]
    rw [if_pos ⟨ha, by rw [hsnap] at hc; exact hc, hd⟩]
    simp

theorem passStep_skip_none (st : SessionState) (now : ℚ) (curr : List Row) (ok : Bool)
    (hsnap : st.snapshot = none)
    (h : ¬(st.autosave = true ∧ diffRows st.snapshot curr ≠ [] ∧
            AUTOSAVE_DEBOUNCE_SEC ≤ now - st.lastSaveTs)) :
    passStep st now curr ok =
      ⟨⟨st.df, some curr, st.lastSaveTs, st.autosave⟩, false, none⟩ := by
  have h' : ¬(st.autosave = true ∧ diffRows none curr ≠ [] ∧
      AUTOSAVE_DEBOUNCE_SEC ≤ now - st.lastSaveTs) := by
    rw [hsnap] at h
    exact h
  simp only [passStep, hsnap]
  rw [if_neg h']
  simp [hsnap]

theorem passStep_skip_some (st : SessionState) (now : ℚ) (curr : List Row) (ok : Bool)
    (ps : List Row) (hsnap : st.snapshot = some ps)
    (h : ¬(st.autosave = true ∧ diffRows st.snapshot curr ≠ [] ∧
            AUTOSAVE_DEBOUNCE_SEC ≤ now - st.lastSaveTs)) :
    passStep st now curr ok = ⟨st, false, none⟩ := by
  have h' : ¬(st.autosave = true ∧ diffRows (some ps) curr ≠ [] ∧
      AUTOSAVE_DEBOUNCE_SEC ≤ now - st.lastSaveTs) := by
    rw [hsnap] at h
    exact h
  simp only [passStep, hsnap]
  rw [if_neg h']
  simp [hsnap]

/-- A pass attempts a remote write exactly when autosave is on, the diff
against the baseline snapshot is nonempty, and the debounce interval has
elapsed since the last recorded write timestamp. -/
theorem passStep_wrote_iff (st : SessionState) (now : ℚ) (curr : List Row) (ok : Bool) :
    (passStep st now curr ok).wrote = true ↔
      st.autosave = true ∧ diffRows st.snapshot curr ≠ [] ∧
        AUTOSAVE_DEBOUNCE_SEC ≤ now - st.lastSaveTs := by
  by_cases h : st.autosave = true ∧ diffRows st.snapshot curr ≠ [] ∧
      AUTOSAVE_DEBOUNCE_SEC ≤ now - st.lastSaveTs
  · cases ok
    · rw [passStep_rollback st now curr h.1 h.2.1 h.2.2]
      exact iff_of_true rfl h
    · rw [passStep_commit st now curr h.1 h.2.1 h.2.2]
      exact iff_of_true rfl h
  · rcases hsnap : st.snapshot with _ | ps
    · rw [passStep_skip_none st now curr ok hsnap h]
      rw [hsnap] at h
      exact iff_of_false (by simp) h
    · rw [passStep_skip_some st now curr ok ps hsnap h]
      rw [hsnap] at h
      exact iff_of_false (by simp) h

theorem passStep_wrote_state (st : SessionState) (now : ℚ) (curr : List Row) (ok : Bool)
    (h : (passStep st now curr ok).wrote = true) :
    (passStep st now curr ok).state.lastSaveTs = now ∧
      (passStep st now curr ok).state.autosave = st.autosave := by
  have hcond := (passStep_wrote_iff st now curr ok).mp h
  cases ok
  · rw [passStep_rollback st now curr hcond.1 hcond.2.1 hcond.2.2]
    exact ⟨rfl, rfl⟩
  · rw [passStep_commit st now curr hcond.1 hcond.2.1 hcond.2.2]
    exact ⟨rfl, rfl⟩

/-- A pass that does not write leaves the whole session state unchanged,
except for initializing an absent snapshot to the current view. -/
theorem passStep_nowrite_state (st : SessionState) (now : ℚ) (curr : List Row) (ok : Bool)
    (h : (passStep st now curr ok).wrote = false) :
    (passStep st now curr ok).state.df = st.df ∧
      (passStep st now curr ok).state.lastSaveTs = st.lastSaveTs ∧
      (passStep st now curr ok).state.autosave = st.autosave ∧
      (∀ ps, st.snapshot = some ps → (passStep st now curr ok).state.snapshot = some ps) := by
  have hcond : ¬(st.autosave = true ∧ diffRows st.snapshot curr ≠ [] ∧
      AUTOSAVE_DEBOUNCE_SEC ≤ now - st.lastSaveTs) := by
    intro hc
    rw [(passStep_wrote_iff st now curr ok).mpr hc] at h
    exact absurd h (by decide)
  rcases hsnap : st.snapshot with _ | ps
  · rw [passStep_skip_none st now curr ok hsnap hcond]
    exact ⟨rfl, rfl, rfl, fun ps hps => absurd hps (by simp)⟩
  · rw [passStep_skip_some st now curr ok ps hsnap hcond]
    exact ⟨rfl, rfl, rfl, fun qs hqs => hsnap.trans hqs⟩

/-- When the delta has pairwise-distinct keys, filtering it down to the rows
matching a given key yields exactly the `find?` result. -/
theorem filter_key_of_pairwise (delta : List Row) (r : Row)
    (hd : delta.Pairwise (fun a b => key a ≠ key b)) :
    delta.filter (fun d => key d == key r) =
      match delta.find? (fun d => key d == key r) with
      | some d => [d]
      | none => [] := by
  induction delta with
  | nil => rfl
  | cons d ds ih =>
    rcases List.pairwise_cons.mp hd with ⟨hhead, htail⟩
    by_cases hk : key d = key r
    · have hb : (key d == key r) = true := by simpa [beq_iff_eq] using hk
      have hfilter : ds.filter (fun d' => key d' == key r) = [] := by
        rw [List.filter_eq_nil_iff]
        intro b hb'
        have : key d ≠ key b := hhead b hb'
        simp only [beq_iff_eq]
        intro hbk
        exact this (by rw [hk, hbk])
      simp [List.filter_cons, List.find?_cons, hb, hfilter]
    · have hb : (key d == key r) = false := by simpa [beq_iff_eq] using hk
      simp [List.filter_cons, List.find?_cons, hb, ih htail]

theorem mergeOne_eq_updateFlags (delta : List Row) (r : Row)
    (hd : delta.Pairwise (fun a b => key a ≠ key b)) :
    mergeOne delta r = [updateFlags delta r] := by
  unfold mergeOne updateFlags
  rw [filter_key_of_pairwise delta r hd]
  rcases delta.find? (fun d => key d == key r) with _ | d
  · rfl
  · rfl

/-- With no duplicate keys in the delta, the optimistic merge is a per-row
flag update over the authoritative table. -/
theorem mergeDelta_eq_map (full delta : List Row)
    (hd : delta.Pairwise (fun a b => key a ≠ key b)) :
    mergeDelta full delta = full.map (updateFlags delta) := by
  unfold mergeDelta
  induction full with
  | nil => rfl
  | cons r rs ih =>
    rw [List.flatMap_cons, mergeOne_eq_updateFlags delta r hd, ih, List.map_cons]
    rfl

/-- With pairwise-distinct delta keys, a delta member's key hit makes it the
`find?` result. -/
theorem find?_key_of_mem (delta : List Row) (r d : Row)
    (hd : delta.Pairwise (fun a b => key a ≠ key b))
    (hmem : d ∈ delta) (hk : key d = key r) :
    delta.find? (fun d' => key d' == key r) = some d := by
  induction delta with
  | nil => exact absurd hmem (by simp)
  | cons d₀ ds ih =>
    rcases List.pairwise_cons.mp hd with ⟨hhead, htail⟩
    rcases List.mem_cons.mp hmem with rfl | hmem'
    · simp [List.find?_cons, show (key d == key r) = true by simpa [beq_iff_eq] using hk]
    · have hne : key d₀ ≠ key d := hhead d hmem'
      have hb : (key d₀ == key r) = false :=
        beq_eq_false_iff_ne.mpr fun h0 => hne (by rw [h0, hk])
      simp [List.find?_cons, hb, ih htail hmem']

/-! ### Claim theorems -/

/-- Claim C4: `_diff_rows` returns exactly those rows of the current view
whose identity key exists in the previous snapshot with at least one of the
four flags differing, together with every row whose key is absent from the
previous snapshot; and when the previous snapshot is empty or absent it
returns no changed rows. -/
theorem diff_rows_characterization (prev : Option (List Row)) (curr : List Row) :
    ((prev = none ∨ prev = some []) → diffRows prev curr = []) ∧
    (∀ ps, prev = some ps → ps ≠ [] → ∀ c,
      (c ∈ diffRows prev curr ↔
        c ∈ curr ∧
          ((∃ p ∈ ps, key p = key c ∧
              (p.seen ≠ c.seen ∨ p.intendView ≠ c.intendView ∨
               p.cvSaved ≠ c.cvSaved ∨ p.contacted ≠ c.contacted)) ∨
            ∀ p ∈ ps, key p ≠ key c))) := by
  constructor
  · rintro (rfl | rfl)
    · exact diffRows_none curr
    · exact diffRows_some_nil curr
  · rintro ps rfl hps c
    rw [mem_diffRows_iff ps curr c hps]
    simp only [flagsNe_eq_true_iff]

/-- Witness for C4: concrete instances of both the empty-snapshot clause and
the membership characterization. -/
theorem diff_rows_characterization_witness :
    diffRows (some []) [rowA₁] = [] ∧ rowA₁ ∈ diffRows (some [rowA]) [rowA₁] := by
  refine ⟨(diff_rows_characterization (some []) [rowA₁]).1 (Or.inr rfl), ?_⟩
  exact (((diff_rows_characterization (some [rowA]) [rowA₁]).2 [rowA] rfl
    (by decide) rowA₁).mpr (by decide))

/-- Counterexample to C5 as stated: a view row whose key is absent from a
nonempty snapshot makes the diff nonempty even though every key present in
both tables (there is none) has equal flags. -/
theorem diff_rows_empty_counterexample :
    diffRows (some [rowA]) [rowB] ≠ [] ∧
      ∀ c ∈ [rowB], ∀ p ∈ [rowA], key p = key c → Row.flags p = Row.flags c := by
  decide

/-- Claim C5 (amended): for a nonempty snapshot, `_diff_rows` is empty iff
every row of the current view has at least one snapshot row with the same
identity key and every same-key snapshot row carries equal flags.  (As
originally stated — empty iff all keys present in both agree on flags — the
claim fails on view rows whose key is absent from the snapshot.) -/
theorem diff_rows_empty_iff (ps : List Row) (curr : List Row) (hps : ps ≠ []) :
    diffRows (some ps) curr = [] ↔
      ∀ c ∈ curr, (∃ p ∈ ps, key p = key c) ∧
        ∀ p ∈ ps, key p = key c → Row.flags p = Row.flags c := by
  rw [diffRows_eq_nil_iff ps curr hps]
  simp only [flagsNe_eq_false_iff]

/-- Witness for C5 (amended), at a one-row snapshot equal to the view. -/
theorem diff_rows_empty_iff_witness :
    ([rowA] : List Row) ≠ [] ∧ diffRows (some [rowA]) [rowA] = [] :=
  ⟨by decide, (diff_rows_empty_iff [rowA] [rowA] (by decide)).mpr (by decide)⟩

/-- Counterexample to C6 as stated: the file URL is stripped but not
lowercased by `_key`, so two records whose identity fields differ only in
the letter case of the file URL receive different keys. -/
theorem key_case_counterexample :
    pyLower "HTTP://X/CV.PDF" = pyLower "http://x/cv.pdf" ∧
    key ⟨"a", "b", "HTTP://X/CV.PDF", false, false, false, false⟩ ≠
      key ⟨"a", "b", "http://x/cv.pdf", false, false, false, false⟩ := by
  decide

/-- Claim C6 (amended): `_key` joins the trimmed-lowercased first and last
names and the trimmed (case-preserved) file URL with the separator `||`:
records whose name fields agree up to case and surrounding whitespace and
whose file URL agrees up to surrounding whitespace receive equal keys,
whatever their flag values (the key never reads the flags). -/
theorem key_normalization (r₁ r₂ : Row)
    (hf : pyLower (pyStrip r₁.first) = pyLower (pyStrip r₂.first))
    (hl : pyLower (pyStrip r₁.last) = pyLower (pyStrip r₂.last))
    (hu : pyStrip r₁.file = pyStrip r₂.file) :
    key r₁ = key r₂ := by
  unfold key
  rw [hf, hl, hu]

/-- Witness for C6 (amended): case/whitespace variants of the name fields
and whitespace padding of the URL, with entirely different flags. -/
theorem key_normalization_witness :
    key ⟨" JaNe ", "DOE", " https://x/cv.pdf ", true, false, true, false⟩ =
      key ⟨"jane", " doe", "https://x/cv.pdf", false, true, false, true⟩ :=
  key_normalization _ _ (by decide) (by decide) (by decide)

/-- Claim C2: in every sync cycle whose remote write fails (the write
oracle returns false, covering any failure reason), the authoritative table
is restored to exactly its pre-merge value, the baseline snapshot is left
unchanged, and the write timestamp is still recorded so the next attempt
respects the debounce window. -/
theorem rollback_on_write_failure (st : SessionState) (now : ℚ) (curr : List Row)
    (h : (passStep st now curr false).wrote = true) :
    (passStep st now curr false).state.df = st.df ∧
      (passStep st now curr false).state.snapshot = st.snapshot ∧
      (passStep st now curr false).state.lastSaveTs = now := by
  have hcond := (passStep_wrote_iff st now curr false).mp h
  rw [passStep_rollback st now curr hcond.1 hcond.2.1 hcond.2.2]
  exact ⟨rfl, rfl, rfl⟩

/-- Witness for C2: a concrete failing cycle (one edited row, stale
timestamp) really attempts a write and rolls back. -/
theorem rollback_on_write_failure_witness :
    (passStep ⟨[rowA], some [rowA], 0, true⟩ 1 [rowA₁] false).wrote = true ∧
      (passStep ⟨[rowA], some [rowA], 0, true⟩ 1 [rowA₁] false).state.df = [rowA] ∧
      (passStep ⟨[rowA], some [rowA], 0, true⟩ 1 [rowA₁] false).state.snapshot = some [rowA] ∧
      (passStep ⟨[rowA], some [rowA], 0, true⟩ 1 [rowA₁] false).state.lastSaveTs = 1 := by
  have h : (passStep ⟨[rowA], some [rowA], 0, true⟩ 1 [rowA₁] false).wrote = true :=
    (passStep_wrote_iff ⟨[rowA], some [rowA], 0, true⟩ 1 [rowA₁] false).mpr
      ⟨rfl, by decide, by norm_num [AUTOSAVE_DEBOUNCE_SEC]⟩
  exact ⟨h, rollback_on_write_failure ⟨[rowA], some [rowA], 0, true⟩ 1 [rowA₁] h⟩

/-- Counterexample to C3 as stated: a pass can issue a network write even
though no row's flags changed between the baseline snapshot and the current
view.  The first pass runs with a filtered view `[rowA]` and initializes the
snapshot to it; the second pass sees the unfiltered, unedited view
`[rowA, rowB]`, whose `rowB` key is absent from the snapshot, so a write is
issued although every key present in both tables has identical flags. -/
theorem write_without_flag_change_counterexample :
    (passStep (passStep ⟨[rowA, rowB], none, 0, true⟩ 10 [rowA] true).state
        20 [rowA, rowB] true).wrote = true ∧
      (passStep ⟨[rowA, rowB], none, 0, true⟩ 10 [rowA] true).state.snapshot = some [rowA] ∧
      ∀ c ∈ [rowA, rowB], ∀ p ∈ [rowA], key p = key c → Row.flags p = Row.flags c := by
  have h1 : passStep ⟨[rowA, rowB], none, 0, true⟩ 10 [rowA] true =
      ⟨⟨[rowA, rowB], some [rowA], 0, true⟩, false, none⟩ :=
    passStep_skip_none _ 10 [rowA] true rfl (by simp [diffRows_none])
  refine ⟨?_, ?_, by decide⟩
  · rw [h1]
    exact (passStep_wrote_iff ⟨[rowA, rowB], some [rowA], 0, true⟩ 20 [rowA, rowB] true).mpr
      ⟨rfl, by decide, by norm_num [AUTOSAVE_DEBOUNCE_SEC]⟩
  · rw [h1]

/-- Claim C3 (amended): a pass issues a network write only when autosave is
on, the debounce interval has elapsed, and the (nonempty) baseline snapshot
differs from the current view in the diff engine's sense: some view row
either has a same-key snapshot row with at least one differing flag, or has
a key absent from the snapshot.  (As originally stated — a write only when
some row's flags changed — the claim fails when a view row's key is missing
from the snapshot, e.g. after the snapshot was taken under a search
filter.) -/
theorem write_requires_change (st : SessionState) (now : ℚ) (curr : List Row) (ok : Bool)
    (h : (passStep st now curr ok).wrote = true) :
    st.autosave = true ∧ AUTOSAVE_DEBOUNCE_SEC ≤ now - st.lastSaveTs ∧
      ∃ ps, st.snapshot = some ps ∧ ps ≠ [] ∧
        ∃ c ∈ curr,
          (∃ p ∈ ps, key p = key c ∧
            (p.seen ≠ c.seen ∨ p.intendView ≠ c.intendView ∨
             p.cvSaved ≠ c.cvSaved ∨ p.contacted ≠ c.contacted)) ∨
          ∀ p ∈ ps, key p ≠ key c := by
  have hcond := (passStep_wrote_iff st now curr ok).mp h
  refine ⟨hcond.1, hcond.2.2, ?_⟩
  rcases hsnap : st.snapshot with _ | ps
  · rw [hsnap] at hcond
    exact absurd rfl hcond.2.1
  · have hps : ps ≠ [] := by
      rintro rfl
      rw [hsnap] at hcond
      exact hcond.2.1 (diffRows_some_nil curr)
    refine ⟨ps, rfl, hps, ?_⟩
    rw [hsnap] at hcond
    obtain ⟨x, hx⟩ := List.exists_mem_of_ne_nil _ hcond.2.1
    have hx' := (mem_diffRows_iff ps curr x hps).mp hx
    refine ⟨x, hx'.1, ?_⟩
    rcases hx'.2 with h1 | h2
    · exact Or.inl (by simpa [flagsNe_eq_true_iff] using h1)
    · exact Or.inr h2

/-- Witness for C3 (amended): a concrete writing pass, with the change that
justified it. -/
theorem write_requires_change_witness :
    (passStep ⟨[rowA], some [rowA], 0, true⟩ 1 [rowA₁] true).wrote = true ∧
      AUTOSAVE_DEBOUNCE_SEC ≤ (1 : ℚ) - 0 := by
  have h : (passStep ⟨[rowA], some [rowA], 0, true⟩ 1 [rowA₁] true).wrote = true :=
    (passStep_wrote_iff ⟨[rowA], some [rowA], 0, true⟩ 1 [rowA₁] true).mpr
      ⟨rfl, by decide, by norm_num [AUTOSAVE_DEBOUNCE_SEC]⟩
  exact ⟨h, (write_requires_change ⟨[rowA], some [rowA], 0, true⟩ 1 [rowA₁] true h).2.1⟩

/-- Counterexample to C9 as stated: with the baseline equal to the table,
an eligible first edit pass writes immediately, and the second edit pass
0.1s later is debounced — so the two edits produce exactly one write, but
that write does not contain the union of both edits: the written table still
has `rowB` with `seen = false` although the second edit set it true. -/
theorem debounce_union_counterexample :
    (passStep ⟨[rowA, rowB], some [rowA, rowB], 0, true⟩ 10 [rowA₁, rowB] true).wrote = true ∧
      (passStep (passStep ⟨[rowA, rowB], some [rowA, rowB], 0, true⟩ 10 [rowA₁, rowB] true).state
        (101 / 10) [rowA₁, rowB₁] true).wrote = false ∧
      (passStep ⟨[rowA, rowB], some [rowA, rowB], 0, true⟩ 10 [rowA₁, rowB] true).written =
        some [rowA₁, rowB] ∧
      rowB.seen = false ∧ rowB₁.seen = true := by
  have h1 : passStep ⟨[rowA, rowB], some [rowA, rowB], 0, true⟩ 10 [rowA₁, rowB] true =
      ⟨⟨mergeDelta [rowA, rowB] (diffRows (some [rowA, rowB]) [rowA₁, rowB]),
          some [rowA₁, rowB], 10, true⟩, true,
        some (mergeDelta [rowA, rowB] (diffRows (some [rowA, rowB]) [rowA₁, rowB]))⟩ :=
    passStep_commit _ 10 _ rfl (by decide) (by norm_num [AUTOSAVE_DEBOUNCE_SEC])
  refine ⟨by rw [h1], ?_, by rw [h1]; decide, rfl, rfl⟩
  rw [h1]
  rw [passStep_skip_some _ _ _ _ [rowA₁, rowB] rfl ?_]
  intro hcond
  have := hcond.2.2
  norm_num [AUTOSAVE_DEBOUNCE_SEC] at this

/-- Claim C9 (amended): (i) coalescing — if a pass writes, a pass 0.1s later
never writes (0.1 < 0.35); so two edits 0.1s apart produce at most one
write, and the single write contains the union of both edits only in the
case (ii): when the first pass was itself debounced (leaving state and
baseline untouched), an eligible second pass 0.1s later writes the merge of
the diff of the *second* view against the unchanged baseline, which carries
both edits.  (iii) Two edit passes 0.4s apart, the second still dirty,
produce two writes (0.4 ≥ 0.35).  As originally stated — two edits 0.1s
apart always produce exactly one write containing the union — the claim
fails when the first pass is itself eligible. -/
theorem debounce_coalescing (st : SessionState) (now₁ : ℚ) (curr₁ curr₂ : List Row)
    (ok₁ ok₂ : Bool) :
    ((passStep st now₁ curr₁ ok₁).wrote = true →
      (passStep (passStep st now₁ curr₁ ok₁).state (now₁ + 1 / 10) curr₂ ok₂).wrote = false) ∧
    (∀ ps, st.snapshot = some ps → (passStep st now₁ curr₁ ok₁).wrote = false →
      (passStep (passStep st now₁ curr₁ ok₁).state (now₁ + 1 / 10) curr₂ ok₂).wrote = true →
      (passStep (passStep st now₁ curr₁ ok₁).state (now₁ + 1 / 10) curr₂ ok₂).written =
        some (mergeDelta st.df (diffRows (some ps) curr₂))) ∧
    ((passStep st now₁ curr₁ ok₁).wrote = true →
      diffRows (passStep st now₁ curr₁ ok₁).state.snapshot curr₂ ≠ [] →
      (passStep (passStep st now₁ curr₁ ok₁).state (now₁ + 2 / 5) curr₂ ok₂).wrote = true) := by
  refine ⟨?_, ?_, ?_⟩
  · intro h
    have hts := (passStep_wrote_state st now₁ curr₁ ok₁ h).1
    cases hb : (passStep (passStep st now₁ curr₁ ok₁).state (now₁ + 1 / 10) curr₂ ok₂).wrote
    · rfl
    · exfalso
      have h2 := (passStep_wrote_iff _ _ _ _).mp hb
      have h3 := h2.2.2
      rw [hts] at h3
      simp only [AUTOSAVE_DEBOUNCE_SEC] at h3
      linarith
  · intro ps hsnap hw1 hw2
    have hns := passStep_nowrite_state st now₁ curr₁ ok₁ hw1
    have hcond := (passStep_wrote_iff _ _ _ _).mp hw2
    cases ok₂
    · rw [passStep_rollback _ _ _ hcond.1 hcond.2.1 hcond.2.2]
      rw [hns.1, hns.2.2.2 ps hsnap]
    · rw [passStep_commit _ _ _ hcond.1 hcond.2.1 hcond.2.2]
      rw [hns.1, hns.2.2.2 ps hsnap]
  · intro h hdiff
    have hst := passStep_wrote_state st now₁ curr₁ ok₁ h
    have hcond := (passStep_wrote_iff st now₁ curr₁ ok₁).mp h
    refine (passStep_wrote_iff _ _ _ _).mpr ⟨?_, hdiff, ?_⟩
    · rw [hst.2, hcond.1]
    · rw [hst.1]
      simp only [AUTOSAVE_DEBOUNCE_SEC]
      linarith

/-- Witness for C9 (amended): a concrete eligible write followed 0.1s later
by a debounced pass, and the same write followed 0.4s later by a second
write of the still-dirty second edit. -/
theorem debounce_coalescing_witness :
    (passStep ⟨[rowA, rowB], some [rowA, rowB], 0, true⟩ 10 [rowA₁, rowB] true).wrote = true ∧
      (passStep (passStep ⟨[rowA, rowB], some [rowA, rowB], 0, true⟩ 10 [rowA₁, rowB] true).state
        (10 + 1 / 10) [rowA₁, rowB₁] true).wrote = false ∧
      (passStep (passStep ⟨[rowA, rowB], some [rowA, rowB], 0, true⟩ 10 [rowA₁, rowB] true).state
        (10 + 2 / 5) [rowA₁, rowB₁] true).wrote = true := by
  have h1 : (passStep ⟨[rowA, rowB], some [rowA, rowB], 0, true⟩ 10 [rowA₁, rowB] true).wrote =
      true :=
    (passStep_wrote_iff ⟨[rowA, rowB], some [rowA, rowB], 0, true⟩ 10 [rowA₁, rowB] true).mpr
      ⟨rfl, by decide, by norm_num [AUTOSAVE_DEBOUNCE_SEC]⟩
  have hc := debounce_coalescing ⟨[rowA, rowB], some [rowA, rowB], 0, true⟩ 10
    [rowA₁, rowB] [rowA₁, rowB₁] true true
  refine ⟨h1, hc.1 h1, hc.2.2 h1 ?_⟩
  rw [passStep_commit _ 10 _ rfl (by decide) (by norm_num [AUTOSAVE_DEBOUNCE_SEC])]
  decide

/-- Claim C10: when every identity key occurs at most once in the changed-row
delta and at most once in the authoritative table, the optimistic merge is a
per-row flag update: it preserves the row count and the row order (the
result is a positional map over the authoritative table), preserves the
three identity columns of every row, replaces the four flags of a row whose
key occurs in the delta by the delta's flags, and leaves every other row
entirely unchanged. -/
theorem optimistic_merge_frame (full delta : List Row)
    (hdelta : delta.Pairwise (fun a b => key a ≠ key b))
    (hfull : full.Pairwise (fun a b => key a ≠ key b)) :
    (mergeDelta full delta).length = full.length ∧
    mergeDelta full delta = full.map (updateFlags delta) ∧
    (∀ r : Row, (updateFlags delta r).first = r.first ∧
      (updateFlags delta r).last = r.last ∧ (updateFlags delta r).file = r.file) ∧
    (∀ r : Row, ∀ d ∈ delta, key d = key r →
      Row.flags (updateFlags delta r) = Row.flags d) ∧
    (∀ r : Row, (∀ d ∈ delta, key d ≠ key r) → updateFlags delta r = r) := by
  refine ⟨?_, mergeDelta_eq_map full delta hdelta, ?_, ?_, ?_⟩
  · rw [mergeDelta_eq_map full delta hdelta, List.length_map]
  · intro r
    unfold updateFlags
    rcases h : delta.find? (fun d => key d == key r) with _ | d
    · exact ⟨rfl, rfl, rfl⟩
    · exact ⟨rfl, rfl, rfl⟩
  · intro r d hmem hk
    unfold updateFlags
    rw [find?_key_of_mem delta r d hdelta hmem hk]
    rfl
  · intro r hnone
    unfold updateFlags
    have : delta.find? (fun d => key d == key r) = none := by
      rw [List.find?_eq_none]
      intro d hd
      simpa [beq_iff_eq] using hnone d hd
    rw [this]

/-- Witness for C10: a two-row table merged with a one-row delta. -/
theorem optimistic_merge_frame_witness :
    ([rowA₁] : List Row).Pairwise (fun a b => key a ≠ key b) ∧
      (mergeDelta [rowA, rowB] [rowA₁]).length = ([rowA, rowB] : List Row).length ∧
      mergeDelta [rowA, rowB] [rowA₁] = [rowA, rowB].map (updateFlags [rowA₁]) := by
  have h := optimistic_merge_frame [rowA, rowB] [rowA₁] (by decide) (by decide)
  exact ⟨by decide, h.1, h.2.1⟩

/-- Counterexample to C1 as stated: on an authentication failure during the
upload, the forced credential refresh itself can fail (the token-exchange
request raises); the handler then returns `(False, error)` after a single
upload attempt, not the claimed two upload attempts. -/
theorem upload_retry_counterexample :
    (uploadWithAutoRefresh ⟨CallOut.ok, CallOut.authErr, false, CallOut.ok, CallOut.ok⟩).uploadAttempts = 1 ∧
    (uploadWithAutoRefresh ⟨CallOut.ok, CallOut.authErr, false, CallOut.ok, CallOut.ok⟩).uploadAttempts ≠ 2 ∧
    (uploadWithAutoRefresh ⟨CallOut.ok, CallOut.authErr, false, CallOut.ok, CallOut.ok⟩).success = false ∧
    (uploadWithAutoRefresh ⟨CallOut.ok, CallOut.authErr, false, CallOut.ok, CallOut.ok⟩).error =
      some "AuthError after refresh" := by
  decide

set_option maxHeartbeats 2000000 in
/-- Claim C1 (amended): `write_state_df` never raises and every failure path
yields the `(false, error)` shape — success holds iff the error is `none`.
A missing Dropbox client yields `(false, "Dropbox not configured")` with no
remote call.  On an authentication failure during the upload, the client
refresh is forced exactly once and the entire write is retried at most
once: a second upload attempt happens exactly when the refresh and the
folder re-ensure succeed, the retried write succeeds iff its upload does,
and otherwise a descriptive error is returned.  A non-authentication API or
transport error on the upload is returned as `(false, error)` with no
retry (one upload attempt, no refresh). -/
theorem write_state_df_spec (cfg : Bool) (env : WriteEnv) :
    ((write_state_df cfg env).success = true ↔ (write_state_df cfg env).error = none) ∧
    (cfg = false → write_state_df cfg env = ⟨false, some "Dropbox not configured", 0, 0⟩) ∧
    (cfg = true → folderRaises env.folder1 = none → env.upload1 = CallOut.authErr →
      (write_state_df cfg env).refreshCalls = 1 ∧
      ((write_state_df cfg env).uploadAttempts = 2 ↔
        env.refreshOk = true ∧ folderRaises env.folder2 = none) ∧
      ((write_state_df cfg env).success = true ↔
        env.refreshOk = true ∧ folderRaises env.folder2 = none ∧
          env.upload2 = CallOut.ok)) ∧
    (cfg = true → folderRaises env.folder1 = none →
      (env.upload1 = CallOut.apiErr ∨ env.upload1 = CallOut.otherErr) →
      (write_state_df cfg env).success = false ∧
        (write_state_df cfg env).uploadAttempts = 1 ∧
        (write_state_df cfg env).refreshCalls = 0) := by
  rcases env with ⟨f1, u1, r, f2, u2⟩
  rcases cfg <;> rcases f1 <;> rcases u1 <;> rcases r <;> rcases f2 <;> rcases u2 <;>
    exact ⟨by decide, by decide, by decide, by decide⟩

/-- Witness for C1 (amended): the auth-failure-then-successful-retry run
performs one refresh and two upload attempts and reports success. -/
theorem write_state_df_spec_witness :
    (write_state_df true ⟨CallOut.ok, CallOut.authErr, true, CallOut.ok, CallOut.ok⟩).refreshCalls = 1 ∧
    (write_state_df true ⟨CallOut.ok, CallOut.authErr, true, CallOut.ok, CallOut.ok⟩).uploadAttempts = 2 ∧
    (write_state_df true ⟨CallOut.ok, CallOut.authErr, true, CallOut.ok, CallOut.ok⟩).success = true := by
  have h := (write_state_df_spec true
    ⟨CallOut.ok, CallOut.authErr, true, CallOut.ok, CallOut.ok⟩).2.2.1 rfl rfl rfl
  exact ⟨h.1, h.2.1.mpr (by decide), h.2.2.mpr (by decide)⟩

/-- One coercion step of a flag cell on an already-coerced boolean cell is
the identity: `str(True).strip().lower() = "true"` maps back to `True`. -/
theorem coerceFlag_bool (b : Bool) : coerceFlag (Cell.bool b) = b := by
  cases b <;> rfl

/-- Re-coercing an already-coerced flag column changes nothing. -/
theorem flagCol_map_coerce (df : Table) (c : String) :
    (flagCol df c).map (fun x => Cell.bool (coerceFlag x)) = flagCol df c := by
  unfold flagCol
  rcases h : findCol df c with _ | cs
  · simp [List.map_replicate, coerceFlag_bool]
  · have hpt : ∀ x : Cell,
        Cell.bool (coerceFlag (Cell.bool (coerceFlag x))) = Cell.bool (coerceFlag x) :=
      fun x => by rw [coerceFlag_bool]
    simp [List.map_map, Function.comp_def, hpt]

/-- Claim C7: `_ensure_schema` always succeeds and its output has exactly the
seven canonical columns in fixed order (extra input columns are dropped);
absent identity columns are filled with the empty string, absent flag
columns with `False`; present flag columns are coerced cell by cell, a cell
becoming `True` exactly when its stripped-lowercased string rendering is one
of `true`, `1`, `yes`, `y` (the `false/0/no/n` spellings and every other
value become `False`).  Totality is by construction: `ensure_schema` is a
total function. -/
theorem ensure_schema_spec (df : Table) :
    (ensure_schema df).map Prod.fst = ALL_COLS ∧
    (∀ c ∈ (["first_name", "last_name", "file_name"] : List String),
      findCol df c = none →
        findCol (ensure_schema df) c = some (List.replicate (nrows df) (Cell.str ""))) ∧
    (∀ c ∈ (["seen", "intend_view", "cv_saved", "contacted"] : List String),
      findCol df c = none →
        findCol (ensure_schema df) c = some (List.replicate (nrows df) (Cell.bool false))) ∧
    (∀ c ∈ (["seen", "intend_view", "cv_saved", "contacted"] : List String), ∀ cs,
      findCol df c = some cs →
        findCol (ensure_schema df) c = some (cs.map (fun x => Cell.bool (coerceFlag x)))) ∧
    (∀ x : Cell, coerceFlag x = true ↔
      pyLower (pyStrip x.pyStr) ∈ (["true", "1", "yes", "y"] : List String)) := by
  refine ⟨rfl, ?_, ?_, ?_, ?_⟩
  · intro c hc h
    simp only [List.mem_cons, List.not_mem_nil, or_false] at hc
    rcases hc with rfl | rfl | rfl
    · change some (identCol df "first_name") = _
      unfold identCol
      rw [h]
      rfl
    · change some (identCol df "last_name") = _
      unfold identCol
      rw [h]
      rfl
    · change some (identCol df "file_name") = _
      unfold identCol
      rw [h]
      rfl
  · intro c hc h
    simp only [List.mem_cons, List.not_mem_nil, or_false] at hc
    rcases hc with rfl | rfl | rfl | rfl
    · change some (flagCol df "seen") = _
      unfold flagCol
      rw [h]
    · change some (flagCol df "intend_view") = _
      unfold flagCol
      rw [h]
    · change some (flagCol df "cv_saved") = _
      unfold flagCol
      rw [h]
    · change some (flagCol df "contacted") = _
      unfold flagCol
      rw [h]
  · intro c hc cs h
    simp only [List.mem_cons, List.not_mem_nil, or_false] at hc
    rcases hc with rfl | rfl | rfl | rfl
    · change some (flagCol df "seen") = _
      unfold flagCol
      rw [h]
    · change some (flagCol df "intend_view") = _
      unfold flagCol
      rw [h]
    · change some (flagCol df "cv_saved") = _
      unfold flagCol
      rw [h]
    · change some (flagCol df "contacted") = _
      unfold flagCol
      rw [h]
  · intro x
    unfold coerceFlag pyBoolMap
    split_ifs with h1 h2 h3 h4 h5 h6 h7 h8 <;> simp_all

/-- Witness for C7: on `sampleRaw` (flag column with assorted spellings, an
extra column, no identity columns) the absent columns are defaulted, the
present flag column is coerced, and the vocabulary behaves as specified. -/
theorem ensure_schema_spec_witness :
    findCol (ensure_schema sampleRaw) "first_name" =
      some (List.replicate (nrows sampleRaw) (Cell.str "")) ∧
    findCol (ensure_schema sampleRaw) "contacted" =
      some (List.replicate (nrows sampleRaw) (Cell.bool false)) ∧
    findCol (ensure_schema sampleRaw) "seen" =
      some ([Cell.str "yes", Cell.str "junk"].map (fun x => Cell.bool (coerceFlag x))) ∧
    coerceFlag (Cell.str " True ") = true := by
  have h := ensure_schema_spec sampleRaw
  refine ⟨h.2.1 "first_name" (by decide) rfl, h.2.2.1 "contacted" (by decide) rfl,
    h.2.2.2.1 "seen" (by decide) [Cell.str "yes", Cell.str "junk"] rfl,
    (h.2.2.2.2 (Cell.str " True ")).mpr (by decide)⟩

/-- Claim C8: `_ensure_schema` is idempotent — normalizing an already
normalized table changes nothing: the identity columns are present and kept
as is, and re-coercing boolean flag cells maps `True/False` back to
themselves. -/
theorem ensure_schema_idem (df : Table) :
    ensure_schema (ensure_schema df) = ensure_schema df := by
  have f1 : flagCol (ensure_schema df) "seen" =
      (flagCol df "seen").map (fun x => Cell.bool (coerceFlag x)) := rfl
  have f2 : flagCol (ensure_schema df) "intend_view" =
      (flagCol df "intend_view").map (fun x => Cell.bool (coerceFlag x)) := rfl
  have f3 : flagCol (ensure_schema df) "cv_saved" =
      (flagCol df "cv_saved").map (fun x => Cell.bool (coerceFlag x)) := rfl
  have f4 : flagCol (ensure_schema df) "contacted" =
      (flagCol df "contacted").map (fun x => Cell.bool (coerceFlag x)) := rfl
  show [("first_name", identCol (ensure_schema df) "first_name"),
    ("last_name", identCol (ensure_schema df) "last_name"),
    ("file_name", identCol (ensure_schema df) "file_name"),
    ("seen", flagCol (ensure_schema df) "seen"),
    ("intend_view", flagCol (ensure_schema df) "intend_view"),
    ("cv_saved", flagCol (ensure_schema df) "cv_saved"),
    ("contacted", flagCol (ensure_schema df) "contacted")] = ensure_schema df
  rw [f1, f2, f3, f4, flagCol_map_coerce, flagCol_map_coerce, flagCol_map_coerce,
    flagCol_map_coerce]
  rfl

end CareerFair
